import Mathlib

/-!
Verification of the webmlive CLI front end (http_client_main.cc and the
encoder CLI source) against its natural-language specification.

The repository's visible code is the command-line glue: argument parsing,
settings validation, URL normalization, and the polling driver loop of
`client_main` / `encoder_main`.  The chunk buffer (`WebmChunkBuffer`) and
uploader (`HttpUploader`) internals are not part of the visible source;
where a claim depends on them they are modelled from the specification,
and each such definition says so in its doc comment.
-/

namespace Webmlive

/-- Status codes. `kBadFormat`, `kInvalidArg`, `kSuccess` mirror the
anonymous enum of the encoder CLI source; `bufferFull` and `notRunning`
come from the specification's error taxonomy for the unseen
chunk-buffer/uploader core. -/
inductive Status where
  | success
  | invalidArg
  | badFormat
  | bufferFull
  | notRunning
deriving DecidableEq, Repr

/-- HTTP POST modes of `webmlive::HttpUploaderSettings::post_mode`. -/
inductive PostMode where
  | httpPost
  | httpFormPost
deriving DecidableEq, Repr

/-- Mirror of `webmlive::HttpUploaderSettings` fields used by the CLI:
target URL, stream identifiers, post mode, headers and form variables. -/
structure HttpUploaderSettings where
  local_file : String
  target_url : String
  stream_id : String
  stream_name : String
  post_mode : PostMode
  headers : List (String × String)
  form_variables : List (String × String)
deriving DecidableEq, Repr

/-- Constant `kAgentQueryFragment` of the encoder CLI source. -/
def kAgentQueryFragment : String := "&agent=p"

/-- Constant `kWebmItagQueryFragment` of the encoder CLI source. -/
def kWebmItagQueryFragment : String := "&itag=43"

/-- C++ `std::string::find(char)` returning whether the character occurs:
`find(c) == npos` is modelled as `¬ cppContains s c`. -/
def cppContains (s : String) (c : Char) : Bool :=
  s.data.contains c

/-- Validation performed by `main` of the encoder CLI source (the
`validate params` block): when `target_url` is non-empty and either
`stream_id` or `stream_name` is empty while the URL has no query string
(no occurrence of the query separator), the program fails; the
specification classifies this failure as `InvalidArgument`. -/
def main_validate (s : HttpUploaderSettings) : Status :=
  if !s.target_url.isEmpty then
    if (s.stream_id.isEmpty || s.stream_name.isEmpty)
        && !cppContains s.target_url '?' then
      Status.invalidArg
    else
      Status.success
  else
    Status.success

/-- URL normalization performed by `start_uploader` of the encoder CLI
source: when `target_url.find('?') == npos` the URL is rebuilt as
`url << target_url << "?ns=" << stream_name << "&id=" << stream_id
<< kAgentQueryFragment << kWebmItagQueryFragment`; otherwise the URL is
left unchanged. -/
def start_uploader_normalize_url (s : HttpUploaderSettings) : String :=
  if !cppContains s.target_url '?' then
    s.target_url ++ "?ns=" ++ s.stream_name ++ "&id=" ++ s.stream_id
      ++ kAgentQueryFragment ++ kWebmItagQueryFragment
  else
    s.target_url

/-- Restatement of the specification's words for the normalization: the
target URL with "a query string consisting of ns=<stream_name>,
id=<stream_id>, an agent marker, and an item-tag marker, in that
order" appended. -/
def spec_normalized_url (s : HttpUploaderSettings) : String :=
  s.target_url ++ "?" ++ "ns=" ++ s.stream_name ++ "&"
    ++ "id=" ++ s.stream_id ++ "&agent=p" ++ "&itag=43"

/-- C++ `std::string::operator[]` as used on `dash_dir`: positions below
the length index the characters, and position `length()` reads the null
terminator (guaranteed by the C++11 standard for `operator[]` at
`size()`). -/
def cppCharAt (s : String) (i : Nat) : Char :=
  s.data.getD i (Char.ofNat 0)

/-- Handling of a non-empty `--dash_dir` value by `parse_command_line` of
the encoder CLI source: `last_char` is read at index
`dash_dir.length()` and a trailing slash is appended unless that
character is a forward or backward slash. -/
def parse_dash_dir (d : String) : String :=
  let last_char := cppCharAt d d.data.length
  if last_char != '/' && last_char != '\\' then
    d ++ "/"
  else
    d

/-- Components started and stopped by the CLI drivers. -/
inductive Component where
  | encoder
  | uploader
deriving DecidableEq, Repr

/-- Lifecycle calls that the CLI drivers make on their components. -/
inductive LifeCall where
  | initCall (c : Component)
  | runCall (c : Component)
  | stopCall (c : Component)
deriving DecidableEq, Repr

/-- Lifecycle-call trace of the success path of `client_main` in
http_client_main.cc: `start_encoder` performs `encoder.Init` then
`encoder.Run`; `start_uploader` performs `uploader.Init` then
`uploader.Run`; after the polling loop exits, `encoder.Stop()` is
called, then `uploader.Stop()`. -/
def client_main_calls : List LifeCall :=
  [LifeCall.initCall Component.encoder,
   LifeCall.runCall Component.encoder,
   LifeCall.initCall Component.uploader,
   LifeCall.runCall Component.uploader,
   LifeCall.stopCall Component.encoder,
   LifeCall.stopCall Component.uploader]

/-- Lifecycle-call trace of the success path of `encoder_main` in the
encoder CLI source: `encoder.Init`, then `start_uploader` performs
`uploader.Init` and `uploader.Run`, then `encoder.Run`; after the
polling loop exits, `encoder.Stop()` is called, then
`uploader.Stop()`. -/
def encoder_main_calls : List LifeCall :=
  [LifeCall.initCall Component.encoder,
   LifeCall.initCall Component.uploader,
   LifeCall.runCall Component.uploader,
   LifeCall.runCall Component.encoder,
   LifeCall.stopCall Component.encoder,
   LifeCall.stopCall Component.uploader]

/-- Components in the order their `Run` method is called (start order). -/
def startOrder (calls : List LifeCall) : List Component :=
  calls.filterMap fun call =>
    match call with
    | LifeCall.runCall c => some c
    | _ => none

/-- Components in the order their `Stop` method is called. -/
def stopOrder (calls : List LifeCall) : List Component :=
  calls.filterMap fun call =>
    match call with
    | LifeCall.stopCall c => some c
    | _ => none

/-- Index of the first colon of a character list, mirroring C++
`std::string::find(":")`: `none` models `npos`. -/
def findColon : List Char → Option Nat
  | [] => none
  | c :: cs => if c = ':' then some 0 else (findColon cs).map (· + 1)

/-- Assignment `out_map[k] = v` on a `std::map` modelled as an
association list: overwrite the existing binding of `k` or append a new
one.  Which keys are bound, and their values, match the C++ map. -/
def mapAssign (m : List (String × String)) (k v : String) :
    List (String × String) :=
  if m.any (fun p => p.1 = k) then
    m.map (fun p => if p.1 = k then (k, v) else p)
  else
    m ++ [(k, v)]

/-- Mirror of `store_string_map_entries` (present identically in both CLI
sources): walk the unparsed entries left to right; an entry without a
colon stops the walk with the bad-format status, leaving the map as
built so far; otherwise the text before the first colon maps to the
text after it. -/
def store_string_map_entries : List String → List (String × String) →
    Status × List (String × String)
  | [], out_map => (Status.success, out_map)
  | entry :: rest, out_map =>
    match findColon entry.data with
    | none => (Status.badFormat, out_map)
    | some sep =>
        store_string_map_entries rest
          (mapAssign out_map
            (String.mk (entry.data.take sep))
            (String.mk (entry.data.drop (sep + 1))))

/-- Insertion of a list of well-formed `name:value` entries into a map,
one after the other (the effect of `store_string_map_entries` on a
colon-containing prefix). -/
def insertEntries (m : List (String × String)) (entries : List String) :
    List (String × String) :=
  entries.foldl
    (fun acc entry =>
      match findColon entry.data with
      | none => acc
      | some sep =>
          mapAssign acc
            (String.mk (entry.data.take sep))
            (String.mk (entry.data.drop (sep + 1))))
    m

/-- Flags of `parse_command_line` in the encoder CLI source whose branch
both requires a following value (`arg_has_value`) and consumes it with
`argv[++i]`. -/
def valueConsumingFlags : List String :=
  ["--dash_dir", "--dash_name", "--dash_start_number",
   "--url", "--header", "--var", "--stream_name", "--stream_id",
   "--adev", "--adevidx", "--achannels", "--arate", "--asize",
   "--vdev", "--vdevidx", "--vwidth", "--vheight", "--vframe_rate",
   "--vorbis_bitrate", "--vorbis_minimum_bitrate",
   "--vorbis_maximum_bitrate", "--vorbis_iblock_bias",
   "--vorbis_lowpass_frequency",
   "--vpx_keyframe_interval", "--vpx_bitrate", "--vpx_codec",
   "--vpx_decimate", "--vpx_min_q", "--vpx_max_q",
   "--vpx_noise_sensitivity", "--vpx_speed", "--vpx_static_threshold",
   "--vpx_threads", "--vpx_overshoot", "--vpx_undershoot",
   "--vpx_max_buffer", "--vpx_init_buffer", "--vpx_opt_buffer",
   "--vpx_max_kf_bitrate", "--vpx_sharpness",
   "--vp8_token_partitions",
   "--vp9_aq_mode", "--vp9_gf_cbr_boost", "--vp9_tile_cols"]

/-- Help flags: their branch prints usage and exits the process, so
parsing ends there. -/
def helpFlags : List String := ["-h", "-?", "--help"]

/-- The `post_mode` field computed by `parse_command_line` of the encoder
CLI source, folded over `argv[1..]`.  `argv` entries are
`Option String` so that `arg_has_value`'s null check
(`argv[val_index] != NULL`) is represented; a `none` current argument
matches no flag and falls to the warning branch.  A flag in
`valueConsumingFlags` whose `arg_has_value` check passes consumes its
value (`argv[++i]` plus the loop increment skips two entries); every
other processed argument advances by one.  The `--form_post` branch
requires `arg_has_value` but does not consume the value, and sets the
post mode to the form-post variant. -/
def parse_post_mode : List (Option String) → PostMode → PostMode
  | [], m => m
  | [_], m => m
  | a :: b :: rest, m =>
    match a with
    | none => parse_post_mode (b :: rest) m
    | some s =>
      if helpFlags.contains s then m
      else if valueConsumingFlags.contains s then
        if b.isSome then parse_post_mode rest m
        else parse_post_mode (b :: rest) m
      else if s = "--form_post" then
        if b.isSome then parse_post_mode (b :: rest) PostMode.httpFormPost
        else parse_post_mode (b :: rest) m
      else parse_post_mode (b :: rest) m

/-- Modelled from the spec: the `WebmChunkBuffer` internals are not part
of the visible source.  Per the specification's ChunkBuffer design, the
buffer holds the bytes of the chunk currently being assembled plus an
ordered queue of completed ("ready") chunks, bounded by a byte
capacity. -/
structure ChunkBuffer where
  capacity : Nat
  pending : List Nat
  ready : List (List Nat)
deriving DecidableEq, Repr

/-- Total bytes currently buffered: the chunk under assembly plus all
ready chunks. -/
def ChunkBuffer.totalBuffered (b : ChunkBuffer) : Nat :=
  b.pending.length + (b.ready.map List.length).sum

/-- Modelled from the spec: `Write`/`BufferData` on the unseen
`WebmChunkBuffer`.  Appends raw bytes to the chunk being assembled; the
`flush` flag stands for the external framing signal that completes a
chunk.  A write whose bytes would push the total buffered size past the
capacity fails with the buffer-full status and leaves the buffer
unchanged. -/
def ChunkBuffer.write (b : ChunkBuffer) (bytes : List Nat) (flush : Bool) :
    Status × ChunkBuffer :=
  if b.totalBuffered + bytes.length > b.capacity then
    (Status.bufferFull, b)
  else
    let assembled := b.pending ++ bytes
    if flush then
      (Status.success,
        { b with pending := [], ready := b.ready ++ [assembled] })
    else
      (Status.success, { b with pending := assembled })

/-- Modelled from the spec: `ChunkReady`/`IsChunkReady` on the unseen
`WebmChunkBuffer`.  Non-blocking query returning whether a completed
chunk awaits consumption and, when one does, its length. -/
def ChunkBuffer.chunkReady (b : ChunkBuffer) : Bool × Nat :=
  match b.ready with
  | [] => (false, 0)
  | c :: _ => (true, c.length)

/-- Modelled from the spec: `ReadChunk` on the unseen `WebmChunkBuffer`.
Copies the oldest ready chunk out and removes it, but only when the
requested length equals that chunk's length exactly; any other length
fails with the invalid-argument status and leaves the buffer
unchanged. -/
def ChunkBuffer.readChunk (b : ChunkBuffer) (len : Nat) :
    Status × List Nat × ChunkBuffer :=
  match b.ready with
  | [] => (Status.invalidArg, [], b)
  | c :: rest =>
    if len = c.length then
      (Status.success, c, { b with ready := rest })
    else
      (Status.invalidArg, [], b)

/-- Modelled from the spec: lifecycle states of the unseen
`HttpUploader` worker.  `running` carries whether a transfer is in
flight; the comment in `start_uploader` ("Run the uploader (it goes
idle and waits for a buffer)") fixes `running false` as the
post-`Run` state. -/
inductive UploaderState where
  | idle
  | initialized
  | running (inFlight : Bool)
  | stopped
deriving DecidableEq, Repr, Fintype

/-- Modelled from the spec: events acting on the uploader worker.
`transferDone` is the in-flight transfer finishing; `cancelTransfer`
is the in-flight transfer being abandoned/cancelled. -/
inductive UploaderEvent where
  | evInit
  | evRun
  | evUploadBuffer
  | evTransferDone
  | evCancelTransfer
  | evStop
deriving DecidableEq, Repr, Fintype

/-- Modelled from the spec: `UploadComplete()` is true exactly when the
worker is running, idle, and ready to accept the next buffer. -/
def uploadComplete : UploaderState → Bool
  | UploaderState.running false => true
  | _ => false

/-- Modelled from the spec: the uploader's Init/Run/UploadBuffer/Stop
state machine.  `UploadBuffer` succeeds only in the running-and-idle
state (one-in-flight discipline); `Run` moves the initialized worker
to running-idle; transfers finish or are cancelled only from the
in-flight state; `Stop` is terminal and idempotent. -/
def uploaderStep : UploaderState → UploaderEvent → UploaderState × Status
  | UploaderState.idle, UploaderEvent.evInit =>
      (UploaderState.initialized, Status.success)
  | UploaderState.initialized, UploaderEvent.evRun =>
      (UploaderState.running false, Status.success)
  | UploaderState.running false, UploaderEvent.evUploadBuffer =>
      (UploaderState.running true, Status.success)
  | UploaderState.running true, UploaderEvent.evTransferDone =>
      (UploaderState.running false, Status.success)
  | UploaderState.running true, UploaderEvent.evCancelTransfer =>
      (UploaderState.running false, Status.success)
  | UploaderState.running _, UploaderEvent.evStop =>
      (UploaderState.stopped, Status.success)
  | UploaderState.initialized, UploaderEvent.evStop =>
      (UploaderState.stopped, Status.success)
  | UploaderState.stopped, UploaderEvent.evStop =>
      (UploaderState.stopped, Status.success)
  | s, _ => (s, Status.notRunning)

/-- State of the `client_main` polling loop of http_client_main.cc: the
chunk buffer, the uploader worker's state, and two history variables
recording the chunks completed by the producer side and the chunks
handed to `UploadBuffer`, each oldest first.  `halted` records that the
loop broke out on an error. -/
structure DriverState where
  buffer : ChunkBuffer
  up : UploaderState
  written : List (List Nat)
  uploaded : List (List Nat)
  halted : Bool
deriving DecidableEq, Repr

/-- Input to one iteration of the `client_main` polling loop: the bytes
`reader.Read` produced (possibly empty), whether those bytes complete a
chunk (the framing signal, external to the buffer model), and whether
the uploader's in-flight transfer finished since the previous
iteration. -/
structure LoopInput where
  bytes : List Nat
  flush : Bool
  transferDone : Bool
deriving DecidableEq, Repr

/-- Fresh driver state: empty buffer of the given capacity, uploader
already taken through `Init` and `Run` (running and idle), no history,
as at the top of `client_main`'s loop. -/
def DriverState.init (capacity : Nat) : DriverState :=
  { buffer := { capacity := capacity, pending := [], ready := [] }
    up := UploaderState.running false
    written := []
    uploaded := []
    halted := false }

/-- Beginning of a loop iteration: when the uploader's in-flight
transfer finished since the previous iteration, the worker has returned
to idle (the asynchronous completion that makes `UploadComplete()`
true again). -/
def driverTransferPhase (s : DriverState) (inp : LoopInput) : DriverState :=
  if inp.transferDone then
    { s with up := (uploaderStep s.up UploaderEvent.evTransferDone).1 }
  else s

/-- Producer side of a loop iteration: when `reader.Read` produced
bytes, they go to `chunk_buffer.BufferData`; on failure the loop
breaks (`halted`).  The `written` history records each chunk at the
write that completes it. -/
def driverBufferPhase (s : DriverState) (inp : LoopInput) : DriverState :=
  if inp.bytes.isEmpty then s
  else
    let res := s.buffer.write inp.bytes inp.flush
    if res.1 ≠ Status.success then { s with halted := true }
    else
      { s with
        buffer := res.2
        written :=
          if inp.flush then s.written ++ [s.buffer.pending ++ inp.bytes]
          else s.written }

/-- Consumer side of a loop iteration: only when
`uploader.UploadComplete()` holds and `chunk_buffer.ChunkReady` reports
a chunk is the chunk read out with its exact reported length and passed
to `uploader.UploadBuffer`; the `uploaded` history records it. -/
def driverUploadPhase (s : DriverState) : DriverState :=
  let ready := s.buffer.chunkReady
  if uploadComplete s.up && ready.1 then
    let res := s.buffer.readChunk ready.2
    { s with
      buffer := res.2.2
      up := (uploaderStep s.up UploaderEvent.evUploadBuffer).1
      uploaded := s.uploaded ++ [res.2.1] }
  else s

/-- One iteration of the `client_main` polling loop of
http_client_main.cc, in source order: transfer completion, then
`BufferData` of freshly read bytes (the loop breaks on its failure,
skipping the upload branch), then the `UploadComplete`-gated
read-and-upload branch. -/
def driverStep (s : DriverState) (inp : LoopInput) : DriverState :=
  if s.halted then s
  else if (driverBufferPhase (driverTransferPhase s inp) inp).halted then
    driverBufferPhase (driverTransferPhase s inp) inp
  else
    driverUploadPhase (driverBufferPhase (driverTransferPhase s inp) inp)

/-- Run of the polling loop over a list of per-iteration inputs. -/
def driverRun (capacity : Nat) (inputs : List LoopInput) : DriverState :=
  inputs.foldl driverStep (DriverState.init capacity)

/-- Settings with the spec's scenario URL lacking a query string and
empty stream identifiers. -/
def sampleSettingsNoQuery : HttpUploaderSettings :=
  { local_file := ""
    target_url := "http://example.com/up"
    stream_id := ""
    stream_name := ""
    post_mode := PostMode.httpPost
    headers := []
    form_variables := [] }

/-- Settings with the spec's scenario URL that already carries a query
string, stream identifiers still empty. -/
def sampleSettingsQuery : HttpUploaderSettings :=
  { sampleSettingsNoQuery with target_url := "http://example.com/up?x=1" }

/-- C3: for every settings value with a non-empty target URL, the
validation in `main` fails with `InvalidArgument` exactly when the URL
lacks a query string and either `stream_id` or `stream_name` is empty;
when the URL already contains a query string it succeeds even with both
identifiers empty. -/
theorem main_validate_invalidArg_iff (s : HttpUploaderSettings)
    (h : s.target_url.isEmpty = false) :
    (main_validate s = Status.invalidArg ↔
      (cppContains s.target_url '?' = false ∧
        (s.stream_id.isEmpty = true ∨ s.stream_name.isEmpty = true))) ∧
    (cppContains s.target_url '?' = true →
      main_validate s = Status.success) := by
  unfold main_validate
  rw [h]
  cases hq : cppContains s.target_url '?' <;>
    cases hid : s.stream_id.isEmpty <;>
    cases hname : s.stream_name.isEmpty <;>
    simp

/-- Witness for C3: the spec's concrete scenario, a URL without a query
string and empty identifiers is rejected as invalid, while the same URL
with a query string is accepted. -/
theorem main_validate_invalidArg_iff_witness :
    main_validate sampleSettingsNoQuery = Status.invalidArg ∧
    main_validate sampleSettingsQuery = Status.success :=
  ⟨(main_validate_invalidArg_iff sampleSettingsNoQuery (by decide)).1.mpr
      (by decide),
   (main_validate_invalidArg_iff sampleSettingsQuery (by decide)).2
      (by decide)⟩

/-- C4: when the target URL has no query string, `start_uploader`
rewrites it to the URL followed by a query string made of
`ns=<stream_name>`, `id=<stream_id>`, the agent marker and the item-tag
marker, in that order (the specification's reading of the
normalization); when the URL already has a query string it is left
unchanged. -/
theorem start_uploader_normalizes_url (s : HttpUploaderSettings) :
    (cppContains s.target_url '?' = false →
      start_uploader_normalize_url s = spec_normalized_url s) ∧
    (cppContains s.target_url '?' = true →
      start_uploader_normalize_url s = s.target_url) := by
  constructor
  · intro h
    apply String.ext
    simp [start_uploader_normalize_url, spec_normalized_url, h,
      kAgentQueryFragment, kWebmItagQueryFragment, String.data_append]
  · intro h
    simp [start_uploader_normalize_url, h]

/-- Witness for C4: the scenario URL without a query string is rewritten
exactly as the specification words it, and the URL with a query string
is untouched. -/
theorem start_uploader_normalizes_url_witness :
    start_uploader_normalize_url sampleSettingsNoQuery
        = spec_normalized_url sampleSettingsNoQuery ∧
    start_uploader_normalize_url sampleSettingsQuery
        = sampleSettingsQuery.target_url :=
  ⟨(start_uploader_normalizes_url sampleSettingsNoQuery).1 (by decide),
   (start_uploader_normalizes_url sampleSettingsQuery).2 (by decide)⟩

/-- C7 counterexample: on the success path of `client_main`, the stop
order after the polling loop is not the reverse of the start order —
the encoder is started first and also stopped first. -/
theorem client_main_stop_order_not_reverse :
    ¬ stopOrder client_main_calls = (startOrder client_main_calls).reverse := by
  decide

/-- C7 amended: after the polling loop, `encoder_main` stops its
components in reverse-start order (uploader runs first, encoder second;
encoder stops first, uploader second), but `client_main` stops them in
the same order it started them (encoder first, then uploader). -/
theorem cli_driver_stop_orders :
    stopOrder client_main_calls = startOrder client_main_calls ∧
    stopOrder encoder_main_calls = (startOrder encoder_main_calls).reverse := by
  decide

/-- C10: for every non-empty `--dash_dir` value, `parse_command_line`
appends a trailing slash unconditionally — also when the directory
already ends in a slash or backslash — because the separator check
indexes the string at position `length()`, which reads the null
terminator rather than the last character, so it never matches. -/
theorem dash_dir_always_appends_slash (d : String) (_h : d ≠ "") :
    parse_dash_dir d = d ++ "/" := by
  have hc : cppCharAt d d.data.length = Char.ofNat 0 := by
    simp [cppCharAt, List.getD_eq_getElem?_getD, List.getElem?_len_le]
  have hcond : ((Char.ofNat 0 != '/') && (Char.ofNat 0 != '\\')) = true := by
    decide
  simp only [parse_dash_dir, hc, hcond, if_true]

/-- A directory value that already ends in a slash. -/
def sampleDashDir : String := "media/"

/-- Witness for C10: a directory already ending in a slash still gets
another slash appended. -/
theorem dash_dir_always_appends_slash_witness :
    parse_dash_dir sampleDashDir = sampleDashDir ++ "/" :=
  dash_dir_always_appends_slash sampleDashDir (by decide)

/-- C5: a write whose bytes would push the buffered total past the
capacity fails with `BufferFull` and leaves the buffer unchanged, and
writes never take the buffered total past the capacity. -/
theorem write_bufferFull_buffer_unchanged (b : ChunkBuffer)
    (bytes : List Nat) (flush : Bool) :
    (b.totalBuffered + bytes.length > b.capacity →
      b.write bytes flush = (Status.bufferFull, b)) ∧
    (b.totalBuffered ≤ b.capacity →
      (b.write bytes flush).2.totalBuffered ≤ b.capacity) := by
  constructor
  · intro h
    simp [ChunkBuffer.write, h]
  · intro h
    rcases Nat.lt_or_ge b.capacity (b.totalBuffered + bytes.length) with hov | hov
    · have hw : b.write bytes flush = (Status.bufferFull, b) := by
        simp [ChunkBuffer.write, hov]
      rw [hw]
      exact h
    · have hno : ¬ b.totalBuffered + bytes.length > b.capacity := by omega
      cases flush
      · have hw : b.write bytes false
            = (Status.success, { b with pending := b.pending ++ bytes }) := by
          simp [ChunkBuffer.write, hno]
        rw [hw]
        simp only [ChunkBuffer.totalBuffered, List.length_append] at hov ⊢
        omega
      · have hw : b.write bytes true
            = (Status.success,
                { b with pending := [], ready := b.ready ++ [b.pending ++ bytes] }) := by
          simp [ChunkBuffer.write, hno]
        rw [hw]
        simp only [ChunkBuffer.totalBuffered, List.map_append, List.sum_append,
          List.map_cons, List.map_nil, List.sum_cons, List.sum_nil,
          List.length_append, List.length_nil] at hov ⊢
        omega

/-- A buffer of capacity 2 already holding 2 buffered bytes. -/
def sampleFullBuffer : ChunkBuffer :=
  { capacity := 2, pending := [], ready := [[7, 8]] }

/-- Witness for C5: writing one more byte to a full two-byte buffer
fails with `BufferFull`, leaves it unchanged, and keeps the total
within capacity. -/
theorem write_bufferFull_buffer_unchanged_witness :
    sampleFullBuffer.write [9] true = (Status.bufferFull, sampleFullBuffer) ∧
    (sampleFullBuffer.write [9] true).2.totalBuffered
      ≤ sampleFullBuffer.capacity :=
  ⟨(write_bufferFull_buffer_unchanged sampleFullBuffer [9] true).1 (by decide),
   (write_bufferFull_buffer_unchanged sampleFullBuffer [9] true).2 (by decide)⟩

/-- C6: with a ready chunk present, `ReadChunk` fails with
`InvalidArgument` and leaves the buffer unchanged whenever the length
differs from the ready chunk's exact length, and on the exact length
returns the oldest ready chunk and removes it. -/
theorem readChunk_exact_length (b : ChunkBuffer) (c : List Nat)
    (rest : List (List Nat)) (len : Nat) (h : b.ready = c :: rest) :
    (len ≠ c.length → b.readChunk len = (Status.invalidArg, [], b)) ∧
    (len = c.length →
      b.readChunk len = (Status.success, c, { b with ready := rest })) := by
  constructor <;> intro hl <;> simp [ChunkBuffer.readChunk, h, hl]

/-- A buffer holding two ready chunks, the oldest of length 3. -/
def sampleReadBuffer : ChunkBuffer :=
  { capacity := 10, pending := [], ready := [[1, 2, 3], [4]] }

/-- Witness for C6: reading with the wrong length fails and leaves the
buffer unchanged; reading with the exact length returns the oldest
chunk and removes it. -/
theorem readChunk_exact_length_witness :
    sampleReadBuffer.readChunk 2 = (Status.invalidArg, [], sampleReadBuffer) ∧
    sampleReadBuffer.readChunk 3
      = (Status.success, [1, 2, 3], { sampleReadBuffer with ready := [[4]] }) :=
  ⟨(readChunk_exact_length sampleReadBuffer [1, 2, 3] [[4]] 2 rfl).1
      (by decide),
   (readChunk_exact_length sampleReadBuffer [1, 2, 3] [[4]] 3 rfl).2 rfl⟩

/-- C2: `UploadComplete()` is true immediately after `Init` followed by
`Run` and before any `UploadBuffer` call; a successful `UploadBuffer`
makes it false; from the in-flight state it becomes true again only
when the transfer finishes or is cancelled; and `UploadBuffer` never
succeeds while a prior transfer is still in flight (one-in-flight
discipline). -/
theorem uploadComplete_one_in_flight :
    uploadComplete
        (uploaderStep
          (uploaderStep UploaderState.idle UploaderEvent.evInit).1
          UploaderEvent.evRun).1 = true ∧
    (∀ s, uploadComplete s = true →
      (uploaderStep s UploaderEvent.evUploadBuffer).2 = Status.success ∧
      uploadComplete (uploaderStep s UploaderEvent.evUploadBuffer).1 = false) ∧
    (∀ s, uploadComplete s = false →
      (uploaderStep s UploaderEvent.evUploadBuffer).2 ≠ Status.success) ∧
    (∀ e, uploadComplete (uploaderStep (UploaderState.running true) e).1 = true →
      e = UploaderEvent.evTransferDone ∨ e = UploaderEvent.evCancelTransfer) := by
  decide

/-- Witness for C2: a successful `UploadBuffer` from the running-idle
state makes `UploadComplete` false, and the transfer-done event is one
of the two ways back to the complete state. -/
theorem uploadComplete_one_in_flight_witness :
    (uploaderStep (UploaderState.running false) UploaderEvent.evUploadBuffer).2
        = Status.success ∧
    uploadComplete
        (uploaderStep (UploaderState.running false)
          UploaderEvent.evUploadBuffer).1 = false ∧
    (UploaderEvent.evTransferDone = UploaderEvent.evTransferDone ∨
      UploaderEvent.evTransferDone = UploaderEvent.evCancelTransfer) :=
  ⟨(uploadComplete_one_in_flight.2.1 (UploaderState.running false) rfl).1,
   (uploadComplete_one_in_flight.2.1 (UploaderState.running false) rfl).2,
   uploadComplete_one_in_flight.2.2.2 UploaderEvent.evTransferDone rfl⟩

/-- Folding one well-formed entry into the map matches one step of
`store_string_map_entries`. -/
theorem insertEntries_cons_of_colon (m : List (String × String)) (e : String)
    (rest : List String) (sep : Nat) (hfc : findColon e.data = some sep) :
    insertEntries m (e :: rest)
      = insertEntries
          (mapAssign m (String.mk (e.data.take sep))
            (String.mk (e.data.drop (sep + 1)))) rest := by
  simp [insertEntries, hfc]

/-- C8: `store_string_map_entries` walks the entries left to right and
returns the bad-format status at the first entry lacking a colon
separator; the map at that point holds exactly the insertions of the
well-formed entries preceding the malformed one, and no entry after it
is inserted (non-atomic on error). -/
theorem store_entries_first_bad_keeps_inserted (pre : List String)
    (bad : String) (post : List String) (m : List (String × String))
    (hpre : ∀ e ∈ pre, findColon e.data ≠ none)
    (hbad : findColon bad.data = none) :
    store_string_map_entries (pre ++ bad :: post) m
      = (Status.badFormat, insertEntries m pre) := by
  induction pre generalizing m with
  | nil =>
    simp [store_string_map_entries, insertEntries, hbad]
  | cons e rest ih =>
    have he : findColon e.data ≠ none := hpre e (by simp)
    rcases hfc : findColon e.data with _ | sep
    · exact absurd hfc he
    · rw [List.cons_append, store_string_map_entries, hfc,
        insertEntries_cons_of_colon m e rest sep hfc]
      exact ih _ (fun x hx => hpre x (List.mem_cons_of_mem e hx))

/-- A well-formed name:value entry. -/
def sampleGoodEntry : String := "a:1"

/-- An entry without a colon separator. -/
def sampleBadEntry : String := "bad"

/-- A well-formed entry placed after the malformed one. -/
def sampleTailEntry : String := "c:3"

/-- Witness for C8: with a well-formed entry, then a malformed one, then
another well-formed one, the walk stops at the malformed entry with the
first entry already inserted and the last one never inserted. -/
theorem store_entries_first_bad_keeps_inserted_witness :
    store_string_map_entries
        ([sampleGoodEntry] ++ sampleBadEntry :: [sampleTailEntry]) []
      = (Status.badFormat, insertEntries [] [sampleGoodEntry]) :=
  store_entries_first_bad_keeps_inserted [sampleGoodEntry] sampleBadEntry
    [sampleTailEntry] [] (by decide) (by decide)

/-- The parse of `--form_post` can only produce the form-post mode when
an occurrence of the flag is followed by a further non-null
argument. -/
theorem parse_post_mode_form_needs_value (args : List (Option String))
    (m : PostMode) :
    parse_post_mode args m = PostMode.httpFormPost →
      m = PostMode.httpFormPost ∨
        ∃ i v, args.get? i = some (some "--form_post") ∧
          args.get? (i + 1) = some (some v) := by
  induction args, m using parse_post_mode.induct with
  | case1 m =>
    intro h
    exact Or.inl h
  | case2 a m =>
    intro h
    exact Or.inl h
  | case3 b rest m ih =>
    intro h
    rw [parse_post_mode] at h
    rcases ih h with hm | ⟨i, v, h1, h2⟩
    · exact Or.inl hm
    · exact Or.inr ⟨i + 1, v, by simpa using h1, by simpa using h2⟩
  | case4 b rest m s hs =>
    intro h
    rw [parse_post_mode] at h
    simp only [hs, if_true] at h
    exact Or.inl h
  | case5 b rest m s hs1 hs2 hb ih =>
    intro h
    rw [parse_post_mode] at h
    simp only [hs1, hs2, hb, if_true, if_false] at h
    rcases ih h with hm | ⟨i, v, h1, h2⟩
    · exact Or.inl hm
    · exact Or.inr ⟨i + 2, v, by simpa using h1, by simpa using h2⟩
  | case6 b rest m s hs1 hs2 hb ih =>
    intro h
    rw [parse_post_mode] at h
    simp only [hs1, hs2, hb, if_true, if_false] at h
    rcases ih h with hm | ⟨i, v, h1, h2⟩
    · exact Or.inl hm
    · exact Or.inr ⟨i + 1, v, by simpa using h1, by simpa using h2⟩
  | case7 b rest m hb hs1 hs2 ih =>
    intro h
    rcases Option.isSome_iff_exists.mp hb with ⟨v, hv⟩
    exact Or.inr ⟨0, v, rfl, by simp [hv]⟩
  | case8 b rest m hb hs1 hs2 ih =>
    intro h
    rw [parse_post_mode] at h
    simp only [hs1, hs2, hb, if_true, if_false, Bool.false_eq_true] at h
    rcases ih h with hm | ⟨i, v, h1, h2⟩
    · exact Or.inl hm
    · exact Or.inr ⟨i + 1, v, by simpa using h1, by simpa using h2⟩
  | case9 b rest m s hs1 hs2 hs3 ih =>
    intro h
    rw [parse_post_mode] at h
    simp only [hs1, hs2, hs3, if_true, if_false] at h
    rcases ih h with hm | ⟨i, v, h1, h2⟩
    · exact Or.inl hm
    · exact Or.inr ⟨i + 1, v, by simpa using h1, by simpa using h2⟩

/-- C9: `parse_command_line` sets `post_mode` to the form-post variant
only when some `--form_post` occurrence is followed by a further
non-null argument; when `--form_post` never occurs before the final
position, `post_mode` keeps its default value `HTTP_POST`. -/
theorem form_post_requires_following_value (args : List (Option String)) :
    (parse_post_mode args PostMode.httpPost = PostMode.httpFormPost →
      ∃ i v, args.get? i = some (some "--form_post") ∧
        args.get? (i + 1) = some (some v)) ∧
    ((∀ i, i + 1 < args.length → args.get? i ≠ some (some "--form_post")) →
      parse_post_mode args PostMode.httpPost = PostMode.httpPost) := by
  constructor
  · intro h
    rcases parse_post_mode_form_needs_value args PostMode.httpPost h with hm | hex
    · exact absurd hm (by simp)
    · exact hex
  · intro hnone
    cases hp : parse_post_mode args PostMode.httpPost with
    | httpPost => rfl
    | httpFormPost =>
      rcases parse_post_mode_form_needs_value args PostMode.httpPost hp with
        hm | ⟨i, v, h1, h2⟩
      · exact absurd hm (by simp)
      · have hlt : i + 1 < args.length := by
          obtain ⟨hl, -⟩ := List.get?_eq_some.mp h2
          exact hl
        exact absurd h1 (hnone i hlt)

/-- A command line whose only argument is a trailing `--form_post`. -/
def sampleArgsFinalFormPost : List (Option String) := [some "--form_post"]

/-- Witness for C9: with `--form_post` as the final argument, the post
mode keeps its default value. -/
theorem form_post_requires_following_value_witness :
    parse_post_mode sampleArgsFinalFormPost PostMode.httpPost
      = PostMode.httpPost :=
  (form_post_requires_following_value sampleArgsFinalFormPost).2
    (fun i hi => by
      simp only [sampleArgsFinalFormPost, List.length_cons,
        List.length_nil] at hi
      omega)

/-- The transfer-completion phase touches only the uploader state. -/
theorem driverTransferPhase_fields (s : DriverState) (inp : LoopInput) :
    (driverTransferPhase s inp).buffer = s.buffer ∧
    (driverTransferPhase s inp).written = s.written ∧
    (driverTransferPhase s inp).uploaded = s.uploaded ∧
    (driverTransferPhase s inp).halted = s.halted := by
  unfold driverTransferPhase
  split <;> simp

/-- The producer phase never touches the uploader state or the upload
history. -/
theorem driverBufferPhase_fields (s : DriverState) (inp : LoopInput) :
    (driverBufferPhase s inp).up = s.up ∧
    (driverBufferPhase s inp).uploaded = s.uploaded := by
  unfold driverBufferPhase
  split
  · simp
  · simp only [ne_eq]
    split <;> simp

/-- The producer phase preserves the FIFO invariant: the upload history
followed by the chunks still queued equals the completion history. -/
theorem driverBufferPhase_inv (s : DriverState) (inp : LoopInput)
    (h : s.uploaded ++ s.buffer.ready = s.written) :
    (driverBufferPhase s inp).uploaded
        ++ (driverBufferPhase s inp).buffer.ready
      = (driverBufferPhase s inp).written := by
  unfold driverBufferPhase
  split
  · exact h
  · rcases Nat.lt_or_ge s.buffer.capacity
      (s.buffer.totalBuffered + inp.bytes.length) with hov | hov
    · have hw : s.buffer.write inp.bytes inp.flush
          = (Status.bufferFull, s.buffer) := by
        simp [ChunkBuffer.write, hov]
      simp [hw]
      exact h
    · have hno : ¬ s.buffer.totalBuffered + inp.bytes.length
          > s.buffer.capacity := by omega
      cases hf : inp.flush
      · have hw : s.buffer.write inp.bytes false
            = (Status.success,
                { s.buffer with pending := s.buffer.pending ++ inp.bytes }) := by
          simp [ChunkBuffer.write, hno]
        simp [hw]
        exact h
      · have hw : s.buffer.write inp.bytes true
            = (Status.success,
                { s.buffer with
                  pending := []
                  ready := s.buffer.ready ++ [s.buffer.pending ++ inp.bytes] }) := by
          simp [ChunkBuffer.write, hno]
        simp [hw, ← List.append_assoc, h]

/-- The consumer phase preserves the FIFO invariant: it moves the oldest
ready chunk from the queue to the end of the upload history. -/
theorem driverUploadPhase_inv (s : DriverState)
    (h : s.uploaded ++ s.buffer.ready = s.written) :
    (driverUploadPhase s).uploaded ++ (driverUploadPhase s).buffer.ready
      = (driverUploadPhase s).written := by
  rcases hr : s.buffer.ready with _ | ⟨c, rest⟩
  · have hcr : s.buffer.chunkReady = (false, 0) := by
      simp [ChunkBuffer.chunkReady, hr]
    simp only [driverUploadPhase, hcr, Bool.and_false, Bool.false_eq_true,
      if_false]
    exact h
  · have hcr : s.buffer.chunkReady = (true, c.length) := by
      simp [ChunkBuffer.chunkReady, hr]
    by_cases hup : uploadComplete s.up = true
    · have hrd : s.buffer.readChunk c.length
          = (Status.success, c, { s.buffer with ready := rest }) := by
        simp [ChunkBuffer.readChunk, hr]
      simp only [driverUploadPhase, hcr, hup, Bool.and_true, if_true, hrd]
      rw [List.append_assoc]
      rw [hr] at h
      simpa using h
    · have hup2 : uploadComplete s.up = false := by
        simpa using hup
      simp only [driverUploadPhase, hcr, hup2, Bool.false_and,
        Bool.false_eq_true, if_false]
      exact h

/-- One loop iteration preserves the FIFO invariant. -/
theorem driverStep_inv (s : DriverState) (inp : LoopInput)
    (h : s.uploaded ++ s.buffer.ready = s.written) :
    (driverStep s inp).uploaded ++ (driverStep s inp).buffer.ready
      = (driverStep s inp).written := by
  unfold driverStep
  split
  · exact h
  · have h1 := driverTransferPhase_fields s inp
    have h2 : (driverTransferPhase s inp).uploaded
        ++ (driverTransferPhase s inp).buffer.ready
        = (driverTransferPhase s inp).written := by
      rw [h1.1, h1.2.1, h1.2.2.1]
      exact h
    have h3 := driverBufferPhase_inv (driverTransferPhase s inp) inp h2
    split
    · exact h3
    · exact driverUploadPhase_inv _ h3

/-- A whole run of the loop preserves the FIFO invariant. -/
theorem driverFold_inv (inputs : List LoopInput) (s : DriverState)
    (h : s.uploaded ++ s.buffer.ready = s.written) :
    (inputs.foldl driverStep s).uploaded
        ++ (inputs.foldl driverStep s).buffer.ready
      = (inputs.foldl driverStep s).written := by
  induction inputs generalizing s with
  | nil => exact h
  | cons inp rest ih => exact ih _ (driverStep_inv s inp h)

/-- C1: over every run of the polling loop, the upload history followed
by the chunks still queued equals the completion history — so chunks
reach the consumer in exactly the order the producer completed them
(FIFO) — and an iteration in which the prior transfer is still in
flight and does not finish starts no new upload. -/
theorem chunks_uploaded_in_completion_order (capacity : Nat)
    (inputs : List LoopInput) :
    ((driverRun capacity inputs).uploaded
        ++ (driverRun capacity inputs).buffer.ready
      = (driverRun capacity inputs).written) ∧
    (∀ s : DriverState, ∀ inp : LoopInput,
      s.up = UploaderState.running true → inp.transferDone = false →
      (driverStep s inp).uploaded = s.uploaded) := by
  constructor
  · exact driverFold_inv inputs (DriverState.init capacity) rfl
  · intro s inp hup htd
    unfold driverStep
    split
    · rfl
    · have ht : driverTransferPhase s inp = s := by
        simp [driverTransferPhase, htd]
      rw [ht]
      have hb := driverBufferPhase_fields s inp
      split
      · exact hb.2
      · have hbc : uploadComplete (driverBufferPhase s inp).up = false := by
          rw [hb.1, hup]
          rfl
        simp only [driverUploadPhase, hbc, Bool.false_and,
          Bool.false_eq_true, if_false]
        exact hb.2

/-- Driver state with a transfer in flight and two completed chunks
waiting in the buffer. -/
def sampleDriverState : DriverState :=
  { buffer := sampleReadBuffer
    up := UploaderState.running true
    written := [[1, 2, 3], [4]]
    uploaded := []
    halted := false }

/-- Loop input in which no bytes arrive and the in-flight transfer does
not finish. -/
def sampleLoopInput : LoopInput :=
  { bytes := [], flush := false, transferDone := false }

/-- Witness for C1: with a transfer still in flight and not finishing,
an iteration starts no new upload. -/
theorem chunks_uploaded_in_completion_order_witness :
    (driverStep sampleDriverState sampleLoopInput).uploaded
      = sampleDriverState.uploaded :=
  (chunks_uploaded_in_completion_order 10 []).2 sampleDriverState
    sampleLoopInput rfl rfl

end Webmlive
